import Mathlib

set_option linter.unusedVariables false

/-! Formal model of the WatchManager inventory application (src/main.rs).
The Rust `HashMap<String, Relogio>` is embedded as a `List Relogio` keyed by
`codigo` (first match wins, as a hash map holds at most one binding per key);
wherever the Rust code iterates a `HashMap`/`HashSet` in arbitrary order and
then sorts by a distinct key, the model builds the same multiset and applies
the same sort, which canonicalises the order. Timestamps (`Local::now()`)
are threaded as an explicit `now : String` argument. Persistence
(`save_to_file` / `load_from_file`) only touches the file system, never the
in-memory state, so it is not part of the state model. -/

/-- Mode enum, Rust `enum Modo`. -/
inductive Modo where
  | Cadastro
  | Buscar
  | Historico
  | Estoques
  | Grafico
  | Compra
  | Venda
deriving DecidableEq, Repr

/-- History tab enum, Rust `enum HistoricoTab`. -/
inductive HistoricoTab where
  | Todos
  | Compras
  | Vendas
  | Aquisicoes
deriving DecidableEq, Repr

/-- Rust `HistoricoTab::next`. -/
def HistoricoTab.next : HistoricoTab → HistoricoTab
  | .Todos => .Compras
  | .Compras => .Vendas
  | .Vendas => .Aquisicoes
  | .Aquisicoes => .Todos

/-- Rust `HistoricoTab::prev`. -/
def HistoricoTab.prev : HistoricoTab → HistoricoTab
  | .Todos => .Aquisicoes
  | .Compras => .Todos
  | .Vendas => .Compras
  | .Aquisicoes => .Vendas

/-- Rust `struct Relogio { codigo: String, quantidade: i32 }`. -/
structure Relogio where
  codigo : String
  quantidade : Int
deriving DecidableEq, Repr

/-- Rust `struct Historico { codigo, quantidade, operacao, timestamp }`. -/
structure Historico where
  codigo : String
  quantidade : Int
  operacao : String
  timestamp : String
deriving DecidableEq, Repr

/-- Lookup in the item map, Rust `self.relogios.get(&codigo)`. -/
def getRelogio (l : List Relogio) (c : String) : Option Relogio :=
  l.find? (fun r => decide (r.codigo = c))

/-- Rust `HashMap::insert codigo r`: replace the binding for `codigo` if one
exists, otherwise add it. -/
def insertRelogio : List Relogio → String → Relogio → List Relogio
  | [], _, r => [r]
  | x :: xs, c, r => if x.codigo = c then r :: xs else x :: insertRelogio xs c r

/-- Rust `get_mut` followed by an in-place update: apply `f` to the binding
for `c` (the unique one in a hash map; the first one here). -/
def modifyRelogio : List Relogio → String → (Relogio → Relogio) → List Relogio
  | [], _, _ => []
  | x :: xs, c, f => if x.codigo = c then f x :: xs else x :: modifyRelogio xs c f

/-- Byte length of a Rust `&str`, i.e. the sum of the UTF-8 sizes of its
characters (Rust `str::len`). -/
def utf8Len (l : List Char) : Nat :=
  l.foldl (fun n c => n + c.utf8Size) 0

/-- Inner loop of Rust `levenshtein_distance`: one pass over `b.chars()`
with running column index `j` and the saved `corner` value, updating the
`costs` row in place. -/
def levRow (ca : Char) : List Char → Nat → Nat → List Nat → List Nat
  | [], _, _, costs => costs
  | cb :: rest, j, corner, costs =>
    let upper := costs.getD (j + 1) 0
    let costs :=
      if ca = cb then costs.set (j + 1) corner
      else costs.set (j + 1) (min corner (min upper (costs.getD j 0)) + 1)
    levRow ca rest (j + 1) upper costs

/-- Outer loop of Rust `levenshtein_distance`: one pass over `a.chars()`
with running row index `i`; each row first sets `costs[0] = i + 1`. -/
def levOuter (b : List Char) : List Char → Nat → List Nat → List Nat
  | [], _, costs => costs
  | ca :: rest, i, costs => levOuter b rest (i + 1) (levRow ca b 0 i (costs.set 0 (i + 1)))

/-- Rust `levenshtein_distance(a, b)`. Note the fidelity point: the cost row
is allocated with `0..=b.len()` where `len` is the BYTE length of `b`, while
the loops run over `chars()`; the returned cell is `costs[b.len()]`. -/
def levenshtein_distance (a b : List Char) : Nat :=
  let costs := levOuter b a 0 (List.range (utf8Len b + 1))
  costs.getD (utf8Len b) 0

/-- String wrapper for `levenshtein_distance` (Rust takes `&str`). -/
def levenshteinDistanceS (a b : String) : Nat :=
  levenshtein_distance a.toList b.toList

/-- Rust `str::trim`: strip leading and trailing whitespace characters. -/
def rustTrim (s : String) : String :=
  ⟨((s.toList.dropWhile Char.isWhitespace).reverse.dropWhile Char.isWhitespace).reverse⟩

/-- Helper of `splitWhitespace`: scan the characters, accumulating the
current word in reverse. -/
def splitWsAux : List Char → List Char → List String
  | [], acc => if acc = [] then [] else [⟨acc.reverse⟩]
  | c :: cs, acc =>
    if c.isWhitespace then
      if acc = [] then splitWsAux cs [] else ⟨acc.reverse⟩ :: splitWsAux cs []
    else splitWsAux cs (c :: acc)

/-- Rust `str::split_whitespace`: the maximal non-whitespace runs, never
producing empty pieces. -/
def splitWhitespace (s : String) : List String :=
  splitWsAux s.toList []

/-- Helper of `splitOnChar`: scan the characters, accumulating the current
piece in reverse. -/
def splitOnCharAux (sep : Char) : List Char → List Char → List String
  | [], acc => [⟨acc.reverse⟩]
  | c :: cs, acc =>
    if c = sep then ⟨acc.reverse⟩ :: splitOnCharAux sep cs []
    else splitOnCharAux sep cs (c :: acc)

/-- Rust `str::split(sep: char)`: split at every separator, keeping empty
pieces. -/
def splitOnChar (sep : Char) (s : String) : List String :=
  splitOnCharAux sep s.toList []

/-- Rust `str::parse::<i32>()`: optional sign, at least one ASCII digit,
rejecting values outside the `i32` range. -/
def parseI32 (s : String) : Option Int :=
  let signAndDigits : Int × List Char :=
    match s.toList with
    | '+' :: rest => (1, rest)
    | '-' :: rest => (-1, rest)
    | l => (1, l)
  let sign := signAndDigits.1
  let digits := signAndDigits.2
  if digits = [] ∨ ¬ digits.all Char.isDigit then none
  else
    let v : Int := sign * (digits.foldl (fun acc c => acc * 10 + (c.toNat - '0'.toNat)) 0 : Nat)
    if -(2 ^ 31) ≤ v ∧ v < 2 ^ 31 then some v else none

/-- Lexicographic strict order on character lists by codepoint. UTF-8 byte
order coincides with codepoint order, so this is exactly the order Rust's
`String: Ord` (byte-wise lexicographic) induces on the decoded text. -/
def strLtb : List Char → List Char → Bool
  | [], [] => false
  | [], _ :: _ => true
  | _ :: _, [] => false
  | a :: as, b :: bs => if a < b then true else if b < a then false else strLtb as bs

/-- Total order companion of `strLtb`. -/
def strLeS (a b : String) : Bool :=
  !(strLtb b.toList a.toList)

/-- Rust `struct App` (the rendering-only backend handles are omitted). -/
structure App where
  relogios : List Relogio
  historico : List Historico
  modo : Modo
  input : String
  mensagens : List String
  historico_filtrado : Option (List Historico)
  editing : Bool
  estoques_list : List Relogio
  estoques_offset : Nat
  estoques_selected : Nat
  historico_offset : Nat
  historico_selected : Nat
  historico_tab : HistoricoTab
  cadastro_list : List Relogio
  cadastro_offset : Nat
  cadastro_selected : Nat
  buscar_results : List (String × Int × Nat)
  buscar_offset : Nat
  buscar_selected : Nat
  chosen_relogio : Option String
  chosen_operation : Option Char
  historico_codigos_unicos : List String
  historico_search_results : List (String × Nat)
  historico_search_selected : Nat

/-- Rust `App::atualiza_estoques_list`: rebuild the sorted inventory list
from the map values and re-clamp the Estoques cursor. -/
def atualiza_estoques_list (app : App) : App :=
  let lista := List.insertionSort (fun a b => strLeS a.codigo b.codigo = true) app.relogios
  let app := { app with estoques_list := lista }
  let app :=
    if app.estoques_offset ≥ app.estoques_list.length ∧ app.estoques_list ≠ [] then
      { app with estoques_offset := app.estoques_list.length - 1 }
    else app
  if app.estoques_selected ≥ app.estoques_list.length ∧ app.estoques_list ≠ [] then
    { app with estoques_selected := app.estoques_list.length - 1 }
  else app

/-- Rust `App::atualiza_cadastro_list`. -/
def atualiza_cadastro_list (app : App) : App :=
  let lista := List.insertionSort (fun a b => strLeS a.codigo b.codigo = true) app.relogios
  let app := { app with cadastro_list := lista }
  let app :=
    if app.cadastro_offset ≥ app.cadastro_list.length ∧ app.cadastro_list ≠ [] then
      { app with cadastro_offset := app.cadastro_list.length - 1 }
    else app
  if app.cadastro_selected ≥ app.cadastro_list.length ∧ app.cadastro_list ≠ [] then
    { app with cadastro_selected := app.cadastro_list.length - 1 }
  else app

/-- Rust `App::atualizar_historico_search_results`: rank every code in
`historico_codigos_unicos` by Levenshtein distance to the trimmed input
(`sort_by_key` is stable, as is `insertionSort`), then clamp the suggestion
selection. -/
def atualizar_historico_search_results (app : App) : App :=
  let query := rustTrim app.input
  let res := List.insertionSort (fun a b : String × Nat => a.2 ≤ b.2)
    (app.historico_codigos_unicos.map (fun c => (c, levenshteinDistanceS c query)))
  let app := { app with historico_search_results := res }
  if app.historico_search_results ≠ [] then
    if app.historico_search_selected ≥ app.historico_search_results.length then
      { app with historico_search_selected := app.historico_search_results.length - 1 }
    else app
  else { app with historico_search_selected := 0 }

/-- Rust `App::new`, from the loaded `(relogios, hist)` pair: the distinct
codes of the loaded history are collected (HashSet) and sorted; then the two
list caches are rebuilt. -/
def App.new (relogios : List Relogio) (hist : List Historico) : App :=
  let historico_codigos_unicos :=
    List.insertionSort (fun a b => strLeS a b = true) ((hist.map (fun h => h.codigo)).dedup)
  let app : App :=
    { relogios := relogios
      historico := hist
      modo := Modo.Estoques
      input := ""
      mensagens := ["Bem-vindo ao Sistema de Relógios (Estoque)!"]
      historico_filtrado := none
      editing := false
      estoques_list := []
      estoques_offset := 0
      estoques_selected := 0
      historico_offset := 0
      historico_selected := 0
      historico_tab := HistoricoTab.Todos
      cadastro_list := []
      cadastro_offset := 0
      cadastro_selected := 0
      buscar_results := []
      buscar_offset := 0
      buscar_selected := 0
      chosen_relogio := none
      chosen_operation := none
      historico_codigos_unicos := historico_codigos_unicos
      historico_search_results := []
      historico_search_selected := 0 }
  atualiza_cadastro_list (atualiza_estoques_list app)

/-- Rust `App::cadastrar_relogio`: insert or overwrite the item, append a
CADASTRO history entry, push a message, rebuild the caches (the
`save_to_file` call has no effect on in-memory state). -/
def cadastrar_relogio (app : App) (codigo : String) (qtd : Int) (now : String) : App :=
  let r : Relogio := { codigo := codigo, quantidade := qtd }
  let entry : Historico :=
    { codigo := codigo, quantidade := qtd, operacao := "CADASTRO", timestamp := now }
  let msg := s!"Relógio {codigo} cadastrado com {qtd} unidades"
  let app := { app with relogios := insertRelogio app.relogios codigo r }
  let app := { app with historico := app.historico ++ [entry] }
  let app := { app with mensagens := app.mensagens ++ [msg] }
  atualiza_cadastro_list (atualiza_estoques_list app)

/-- Rust `App::vender_relogio`: sell only when the code exists and holds at
least `qtd`; otherwise push a rejection message and change nothing else. -/
def vender_relogio (app : App) (codigo : String) (qtd : Int) (now : String) : App :=
  let app :=
    match getRelogio app.relogios codigo with
    | some r =>
      if r.quantidade ≥ qtd then
        let novos := modifyRelogio app.relogios codigo
          (fun r => { r with quantidade := r.quantidade - qtd })
        let entry : Historico :=
          { codigo := codigo, quantidade := qtd, operacao := "VENDA", timestamp := now }
        let msg := s!"Vendido {qtd} unidades do relógio {codigo}"
        let app := { app with relogios := novos }
        let app := { app with historico := app.historico ++ [entry] }
        { app with mensagens := app.mensagens ++ [msg] }
      else
        { app with mensagens := app.mensagens ++ ["Não há estoque suficiente para vender!"] }
    | none => { app with mensagens := app.mensagens ++ ["Relógio não encontrado!"] }
  atualiza_cadastro_list (atualiza_estoques_list app)

/-- Rust `App::comprar_relogio`: add to an existing item or create one, then
unconditionally append a COMPRA history entry and a message. -/
def comprar_relogio (app : App) (codigo : String) (qtd : Int) (now : String) : App :=
  let app :=
    match getRelogio app.relogios codigo with
    | some _ =>
      let novos := modifyRelogio app.relogios codigo
        (fun r => { r with quantidade := r.quantidade + qtd })
      { app with relogios := novos }
    | none =>
      let novos := insertRelogio app.relogios codigo { codigo := codigo, quantidade := qtd }
      { app with relogios := novos }
  let entry : Historico :=
    { codigo := codigo, quantidade := qtd, operacao := "COMPRA", timestamp := now }
  let msg := s!"Adicionado {qtd} unidades do relógio {codigo}"
  let app := { app with historico := app.historico ++ [entry] }
  let app := { app with mensagens := app.mensagens ++ [msg] }
  atualiza_cadastro_list (atualiza_estoques_list app)

/-- Rust `App::get_historico_por_codigo`. -/
def get_historico_por_codigo (app : App) (codigo : String) : List Historico :=
  app.historico.filter (fun h => decide (h.codigo = codigo))

/-- Rust `App::get_historico_atual_vec`: the optionally code-filtered history
restricted to the active tab. -/
def get_historico_atual_vec (app : App) : List Historico :=
  let base := match app.historico_filtrado with
    | some h => h
    | none => app.historico
  base.filter (fun h =>
    match app.historico_tab with
    | HistoricoTab.Todos => true
    | HistoricoTab.Compras => decide (h.operacao = "COMPRA")
    | HistoricoTab.Vendas => decide (h.operacao = "VENDA")
    | HistoricoTab.Aquisicoes => decide (h.operacao = "CADASTRO"))

/-- Rust `App::sai_modo_insercao`. -/
def sai_modo_insercao (app : App) : App :=
  { app with modo := Modo.Estoques, input := "", editing := false, historico_filtrado := none }

/-- Rust `App::filtrar_historico`: empty code removes the filter; a code with
no matching history leaves the filter off; otherwise the filter is installed;
the HISTORY cursor is reset in every case. -/
def filtrar_historico (app : App) (codigo : String) : App :=
  let app :=
    if codigo = "" then
      { app with historico_filtrado := none,
                 mensagens := app.mensagens ++ ["Filtro removido. Mostrando todo o histórico."] }
    else
      let hist := get_historico_por_codigo app codigo
      if hist = [] then
        { app with mensagens := app.mensagens ++ ["Nenhum histórico encontrado para esse código!"],
                   historico_filtrado := none }
      else
        { app with historico_filtrado := some hist,
                   mensagens := app.mensagens ++ [s!"Histórico filtrado por {codigo} exibido"] }
  { app with historico_offset := 0, historico_selected := 0 }

/-- Rust `App::historico_search_up`. -/
def historico_search_up (app : App) : App :=
  if app.historico_search_selected > 0 then
    { app with historico_search_selected := app.historico_search_selected - 1 }
  else app

/-- Rust `App::historico_search_down`. -/
def historico_search_down (app : App) : App :=
  if app.historico_search_results ≠ [] ∧
      app.historico_search_selected + 1 < app.historico_search_results.length then
    { app with historico_search_selected := app.historico_search_selected + 1 }
  else app

/-- Enter handler of `Modo::Cadastro` while editing (main loop): split the
trimmed input on whitespace; with exactly two tokens and an integer second
token call `cadastrar_relogio`; with two tokens and a bad integer push
"Quantidade inválida!"; with any other token count do nothing; in every case
leave insertion mode. -/
def cadastroEnter (app : App) (now : String) : App :=
  let parts := splitWhitespace (rustTrim app.input)
  let app :=
    if parts.length = 2 then
      match parseI32 (parts.getD 1 "") with
      | some qtd => cadastrar_relogio app (parts.getD 0 "") qtd now
      | none => { app with mensagens := app.mensagens ++ ["Quantidade inválida!"] }
    else app
  sai_modo_insercao app

/-- Enter handler of `Modo::Historico` while editing (main loop): with a
non-empty suggestion list filter by the suggestion at index
`historico_search_selected` (in the running program that index is always in
bounds, so the `getD` default is never read), otherwise filter by the trimmed
raw input; then leave editing and clear the input. -/
def historicoEditingEnter (app : App) : App :=
  let app :=
    if app.historico_search_results ≠ [] then
      let cod := (app.historico_search_results.getD app.historico_search_selected ("", 0)).1
      filtrar_historico app cod
    else
      filtrar_historico app (rustTrim app.input)
  { app with editing := false, input := "" }

/-- One register/buy/sell call, with its parsed arguments and timestamp. -/
inductive Op where
  | register (codigo : String) (qtd : Int) (now : String)
  | buy (codigo : String) (qtd : Int) (now : String)
  | sell (codigo : String) (qtd : Int) (now : String)

/-- Dispatch of one store operation. -/
def applyOp (app : App) : Op → App
  | .register c q n => cadastrar_relogio app c q n
  | .buy c q n => comprar_relogio app c q n
  | .sell c q n => vender_relogio app c q n

/-- A whole sequence of store operations. -/
def applyOps (app : App) (ops : List Op) : App :=
  ops.foldl applyOp app

/-- Whether the quantity argument of a register/buy call is non-negative
(sell quantities are unrestricted). -/
def opQtdOk : Op → Bool
  | .register _ q _ => decide (0 ≤ q)
  | .buy _ q _ => decide (0 ≤ q)
  | .sell _ _ _ => true

/-- Windowed-list cursor state, the `(offset, selected)` pair every list view
of `App` carries (estoques, cadastro, buscar, historico). -/
structure Cursor where
  offset : Nat
  selected : Nat
deriving DecidableEq, Repr

/-- Cursor move-up, Rust `App::historico_select_up` (the same code appears
in `cadastro_select_up`, `buscar_select_up` and the Estoques Up handler). -/
def Cursor.moveUp (cur : Cursor) : Cursor :=
  if cur.selected > 0 then
    let s := cur.selected - 1
    { selected := s, offset := if s < cur.offset then s else cur.offset }
  else cur

/-- Cursor move-down over a backing list of length `n` with the fixed
`vis_height = 5`, Rust `App::historico_select_down` (the same code appears in
`cadastro_select_down`, `buscar_select_down` and the Estoques Down handler). -/
def Cursor.moveDown (cur : Cursor) (n : Nat) : Cursor :=
  if n ≠ 0 ∧ cur.selected + 1 < n then
    let s := cur.selected + 1
    { selected := s, offset := if s ≥ cur.offset + 5 then s - 5 + 1 else cur.offset }
  else cur

/-- Cursor re-clamp after the backing list length changed to `n`, the clamping
half of Rust `App::atualiza_estoques_list` (same code in
`atualiza_cadastro_list`, `atualizar_busca_results`,
`atualizar_historico_search_results`). -/
def Cursor.reclamp (cur : Cursor) (n : Nat) : Cursor :=
  let o := if cur.offset ≥ n ∧ n ≠ 0 then n - 1 else cur.offset
  let s := if cur.selected ≥ n ∧ n ≠ 0 then n - 1 else cur.selected
  { offset := o, selected := s }

/-- One cursor operation; `reclampTo n` is the re-clamp run when the backing
sequence length becomes `n`. -/
inductive CursorOp where
  | up
  | down
  | reclampTo (n : Nat)

/-- One step of a cursor together with its current backing length. -/
def cursorStep : Cursor × Nat → CursorOp → Cursor × Nat
  | (c, n), .up => (c.moveUp, n)
  | (c, n), .down => (c.moveDown n, n)
  | (c, _), .reclampTo m => (c.reclamp m, m)

/-- A whole sequence of cursor operations. -/
def cursorRun (init : Cursor × Nat) (ops : List CursorOp) : Cursor × Nat :=
  ops.foldl cursorStep init

/-- The cursor guarantee stated in the spec, for `viewport_height = 5`. -/
def cursorInv (c : Cursor) (n : Nat) : Prop :=
  (0 < n → c.selected < n) ∧ c.offset ≤ c.selected ∧ c.selected < c.offset + 5

/-- Date part of a timestamp: Rust `timestamp.find(' ')` plus the slice
before the space; `none` when there is no space. -/
def dataDe (ts : String) : Option String :=
  if ' ' ∈ ts.toList then some ⟨ts.toList.takeWhile (fun c => decide (c ≠ ' '))⟩ else none

/-- Number of VENDA history entries of calendar day `d` (the `entry.0 += 1`
branch of `App::agrupamento_por_dia`). -/
def contaVendas (hist : List Historico) (d : String) : Nat :=
  (hist.filter (fun h => decide (h.operacao = "VENDA" ∧ dataDe h.timestamp = some d))).length

/-- Number of COMPRA history entries of calendar day `d` (the `entry.1 += 1`
branch of `App::agrupamento_por_dia`). -/
def contaCompras (hist : List Historico) (d : String) : Nat :=
  (hist.filter (fun h => decide (h.operacao = "COMPRA" ∧ dataDe h.timestamp = some d))).length

/-- Rust `App::formata_data_ddmm`. -/
def formata_data_ddmm (data : String) : String :=
  let parts := splitOnChar '-' data
  if parts.length = 3 then (parts.getD 2 "") ++ "/" ++ (parts.getD 1 "") else data

/-- The sorted, truncated bucket list of `App::agrupamento_por_dia` before
the DD/MM reformat: the `HashMap` holds one `(vendas, compras)` pair per
distinct date (also one created by a CADASTRO entry, via `or_insert`), its
arbitrary iteration order is canonicalised by the sort on the distinct date
keys, and `vet[start..]` keeps the last 7 buckets. -/
def agrupamento_buckets (hist : List Historico) : List (String × Nat × Nat) :=
  let dias := (hist.filterMap (fun h => dataDe h.timestamp)).dedup
  let vet := List.insertionSort (fun a b : String × Nat × Nat => strLeS a.1 b.1 = true)
    (dias.map (fun d => (d, contaVendas hist d, contaCompras hist d)))
  let start := if vet.length > 7 then vet.length - 7 else 0
  vet.drop start

/-- Rust `App::agrupamento_por_dia` (`self.historico` passed explicitly). -/
def agrupamento_por_dia (hist : List Historico) : List (String × Nat × Nat) :=
  (agrupamento_buckets hist).map (fun x => (formata_data_ddmm x.1, x.2.1, x.2.2))

/-- Every item of the map holds a non-negative quantity (the spec's
`quantity >= 0` invariant). -/
def allNonneg (l : List Relogio) : Prop :=
  ∀ r ∈ l, 0 ≤ r.quantidade

instance (l : List Relogio) : Decidable (allNonneg l) :=
  List.decidableBAll _ l

instance (c : Cursor) (n : Nat) : Decidable (cursorInv c n) := by
  unfold cursorInv
  infer_instance

/-- The observable outcome of confirming the HISTORY search with code `cod`
on state `app0`, yielding `app1`: editing cleared, input cleared, HISTORY
cursor reset, and the filter set to the `cod`-matching entries of the
history (off when `cod` is empty or matches nothing); the store itself is
untouched. -/
def filtroAplicado (app0 app1 : App) (cod : String) : Prop :=
  app1.editing = false ∧ app1.input = "" ∧
  app1.historico_offset = 0 ∧ app1.historico_selected = 0 ∧
  app1.historico_filtrado =
    (if cod = "" then none
     else if app0.historico.filter (fun h => decide (h.codigo = cod)) = [] then none
     else some (app0.historico.filter (fun h => decide (h.codigo = cod)))) ∧
  app1.historico = app0.historico ∧ app1.relogios = app0.relogios

/-- Concrete history entry for code "A". -/
def histA : Historico :=
  { codigo := "A", quantidade := 1, operacao := "COMPRA", timestamp := "2024-01-01 10:00:00" }

/-- Concrete history entry for code "B". -/
def histB : Historico :=
  { codigo := "B", quantidade := 1, operacao := "COMPRA", timestamp := "2024-01-01 11:00:00" }

/-- Concrete HISTORY-search state: start with history for codes "A" and "B",
enter HISTORY search, type "A" (re-ranking the suggestions) and press Down
once, moving the suggestion selection off the top-ranked entry. -/
def appC5 : App :=
  historico_search_down (atualizar_historico_search_results
    { App.new [] [histA, histB] with modo := Modo.Historico, editing := true, input := "A" })

/-- Concrete REGISTER-form state whose input has one token instead of two. -/
def appC9 : App :=
  { App.new [] [] with modo := Modo.Cadastro, editing := true, input := "abc" }

/-- Concrete store state holding an item with a negative quantity (reachable:
register the item with quantity -1, or load it from disk). -/
def appC10 : App :=
  App.new [{ codigo := "A", quantidade := -1 }] []

/-- Concrete history used to instantiate the aggregation properties. -/
def hist0 : List Historico :=
  [{ codigo := "A", quantidade := 1, operacao := "COMPRA", timestamp := "2024-01-01 10:00:00" },
   { codigo := "A", quantidade := 2, operacao := "VENDA", timestamp := "2024-01-02 10:00:00" },
   { codigo := "B", quantidade := 3, operacao := "CADASTRO", timestamp := "2024-01-03 10:00:00" }]
/-! Helper lemmas. -/

theorem atualizaE_relogios (app : App) :
    (atualiza_estoques_list app).relogios = app.relogios := by
  unfold atualiza_estoques_list
  dsimp only
  split <;> split <;> rfl

theorem atualizaE_historico (app : App) :
    (atualiza_estoques_list app).historico = app.historico := by
  unfold atualiza_estoques_list
  dsimp only
  split <;> split <;> rfl

theorem atualizaE_mensagens (app : App) :
    (atualiza_estoques_list app).mensagens = app.mensagens := by
  unfold atualiza_estoques_list
  dsimp only
  split <;> split <;> rfl

theorem atualizaE_codigos (app : App) :
    (atualiza_estoques_list app).historico_codigos_unicos = app.historico_codigos_unicos := by
  unfold atualiza_estoques_list
  dsimp only
  split <;> split <;> rfl

theorem atualizaC_relogios (app : App) :
    (atualiza_cadastro_list app).relogios = app.relogios := by
  unfold atualiza_cadastro_list
  dsimp only
  split <;> split <;> rfl

theorem atualizaC_historico (app : App) :
    (atualiza_cadastro_list app).historico = app.historico := by
  unfold atualiza_cadastro_list
  dsimp only
  split <;> split <;> rfl

theorem atualizaC_mensagens (app : App) :
    (atualiza_cadastro_list app).mensagens = app.mensagens := by
  unfold atualiza_cadastro_list
  dsimp only
  split <;> split <;> rfl

theorem atualizaC_codigos (app : App) :
    (atualiza_cadastro_list app).historico_codigos_unicos = app.historico_codigos_unicos := by
  unfold atualiza_cadastro_list
  dsimp only
  split <;> split <;> rfl

theorem atualizaBoth_relogios (app : App) :
    (atualiza_cadastro_list (atualiza_estoques_list app)).relogios = app.relogios := by
  rw [atualizaC_relogios, atualizaE_relogios]

theorem atualizaBoth_historico (app : App) :
    (atualiza_cadastro_list (atualiza_estoques_list app)).historico = app.historico := by
  rw [atualizaC_historico, atualizaE_historico]

theorem atualizaBoth_mensagens (app : App) :
    (atualiza_cadastro_list (atualiza_estoques_list app)).mensagens = app.mensagens := by
  rw [atualizaC_mensagens, atualizaE_mensagens]

theorem atualizaBoth_codigos (app : App) :
    (atualiza_cadastro_list (atualiza_estoques_list app)).historico_codigos_unicos
      = app.historico_codigos_unicos := by
  rw [atualizaC_codigos, atualizaE_codigos]

theorem mem_insertRelogio {y : Relogio} {l : List Relogio} {c : String} {r : Relogio}
    (h : y ∈ insertRelogio l c r) : y ∈ l ∨ y = r := by
  induction l with
  | nil =>
    simp [insertRelogio] at h
    exact Or.inr h
  | cons x xs ih =>
    rw [insertRelogio] at h
    by_cases hx : x.codigo = c
    · rw [if_pos hx] at h
      rcases List.mem_cons.mp h with h1 | h1
      · exact Or.inr h1
      · exact Or.inl (List.mem_cons_of_mem _ h1)
    · rw [if_neg hx] at h
      rcases List.mem_cons.mp h with h1 | h1
      · exact Or.inl (h1 ▸ List.mem_cons_self _ _)
      · rcases ih h1 with h2 | h2
        · exact Or.inl (List.mem_cons_of_mem _ h2)
        · exact Or.inr h2

theorem getRelogio_insertRelogio_self (l : List Relogio) {c : String} {r : Relogio}
    (hr : r.codigo = c) : getRelogio (insertRelogio l c r) c = some r := by
  induction l with
  | nil => simp [insertRelogio, getRelogio, List.find?, hr]
  | cons x xs ih =>
    rw [insertRelogio]
    by_cases hx : x.codigo = c
    · rw [if_pos hx]
      simp [getRelogio, List.find?, hr]
    · rw [if_neg hx]
      simpa [getRelogio, List.find?, hx] using ih

theorem mem_modifyRelogio {y : Relogio} {l : List Relogio} {c : String} {f : Relogio → Relogio}
    (h : y ∈ modifyRelogio l c f) : y ∈ l ∨ ∃ r, getRelogio l c = some r ∧ y = f r := by
  induction l with
  | nil => simp [modifyRelogio] at h
  | cons x xs ih =>
    rw [modifyRelogio] at h
    by_cases hx : x.codigo = c
    · rw [if_pos hx] at h
      rcases List.mem_cons.mp h with h1 | h1
      · exact Or.inr ⟨x, by simp [getRelogio, List.find?, hx], h1⟩
      · exact Or.inl (List.mem_cons_of_mem _ h1)
    · rw [if_neg hx] at h
      rcases List.mem_cons.mp h with h1 | h1
      · exact Or.inl (h1 ▸ List.mem_cons_self _ _)
      · rcases ih h1 with h2 | h2
        · exact Or.inl (List.mem_cons_of_mem _ h2)
        · rcases h2 with ⟨r, hr, hy⟩
          exact Or.inr ⟨r, by simpa [getRelogio, List.find?, hx] using hr, hy⟩

theorem getRelogio_modifyRelogio_self {l : List Relogio} {c : String} {f : Relogio → Relogio}
    {r : Relogio} (h : getRelogio l c = some r) (hf : (f r).codigo = r.codigo) :
    getRelogio (modifyRelogio l c f) c = some (f r) := by
  induction l with
  | nil => simp [getRelogio, List.find?] at h
  | cons x xs ih =>
    rw [modifyRelogio]
    by_cases hx : x.codigo = c
    · rw [if_pos hx]
      have hxr : x = r := by
        simpa [getRelogio, List.find?, hx] using h
      subst hxr
      simp [getRelogio, List.find?, hf, hx]
    · rw [if_neg hx]
      have h2 : getRelogio xs c = some r := by
        simpa [getRelogio, List.find?, hx] using h
      simpa [getRelogio, List.find?, hx] using ih h2

theorem cadastrar_relogios (app : App) (c : String) (q : Int) (n : String) :
    (cadastrar_relogio app c q n).relogios
      = insertRelogio app.relogios c { codigo := c, quantidade := q } := by
  unfold cadastrar_relogio
  dsimp only
  rw [atualizaBoth_relogios]

theorem cadastrar_historico (app : App) (c : String) (q : Int) (n : String) :
    (cadastrar_relogio app c q n).historico = app.historico ++
      [{ codigo := c, quantidade := q, operacao := "CADASTRO", timestamp := n }] := by
  unfold cadastrar_relogio
  dsimp only
  rw [atualizaBoth_historico]

theorem cadastrar_mensagens (app : App) (c : String) (q : Int) (n : String) :
    (cadastrar_relogio app c q n).mensagens
      = app.mensagens ++ [s!"Relógio {c} cadastrado com {q} unidades"] := by
  unfold cadastrar_relogio
  dsimp only
  rw [atualizaBoth_mensagens]

theorem cadastrar_codigos (app : App) (c : String) (q : Int) (n : String) :
    (cadastrar_relogio app c q n).historico_codigos_unicos = app.historico_codigos_unicos := by
  unfold cadastrar_relogio
  dsimp only
  rw [atualizaBoth_codigos]

theorem comprar_relogios_found (app : App) (c : String) (q : Int) (n : String)
    {r : Relogio} (h : getRelogio app.relogios c = some r) :
    (comprar_relogio app c q n).relogios
      = modifyRelogio app.relogios c (fun r => { r with quantidade := r.quantidade + q }) := by
  unfold comprar_relogio
  rw [h]
  dsimp only
  rw [atualizaBoth_relogios]

theorem comprar_relogios_missing (app : App) (c : String) (q : Int) (n : String)
    (h : getRelogio app.relogios c = none) :
    (comprar_relogio app c q n).relogios
      = insertRelogio app.relogios c { codigo := c, quantidade := q } := by
  unfold comprar_relogio
  rw [h]
  dsimp only
  rw [atualizaBoth_relogios]

theorem comprar_historico (app : App) (c : String) (q : Int) (n : String) :
    (comprar_relogio app c q n).historico = app.historico ++
      [{ codigo := c, quantidade := q, operacao := "COMPRA", timestamp := n }] := by
  unfold comprar_relogio
  cases h : getRelogio app.relogios c <;> dsimp only <;> rw [atualizaBoth_historico]

theorem comprar_mensagens (app : App) (c : String) (q : Int) (n : String) :
    (comprar_relogio app c q n).mensagens
      = app.mensagens ++ [s!"Adicionado {q} unidades do relógio {c}"] := by
  unfold comprar_relogio
  cases h : getRelogio app.relogios c <;> dsimp only <;> rw [atualizaBoth_mensagens]

theorem comprar_codigos (app : App) (c : String) (q : Int) (n : String) :
    (comprar_relogio app c q n).historico_codigos_unicos = app.historico_codigos_unicos := by
  unfold comprar_relogio
  cases h : getRelogio app.relogios c <;> dsimp only <;> rw [atualizaBoth_codigos]

theorem vender_missing (app : App) (c : String) (q : Int) (n : String)
    (h : getRelogio app.relogios c = none) :
    (vender_relogio app c q n).relogios = app.relogios ∧
    (vender_relogio app c q n).historico = app.historico ∧
    (vender_relogio app c q n).mensagens = app.mensagens ++ ["Relógio não encontrado!"] ∧
    (vender_relogio app c q n).historico_codigos_unicos = app.historico_codigos_unicos := by
  unfold vender_relogio
  rw [h]
  dsimp only
  exact ⟨atualizaBoth_relogios _, atualizaBoth_historico _, atualizaBoth_mensagens _,
    atualizaBoth_codigos _⟩

theorem vender_insufficient (app : App) (c : String) (q : Int) (n : String)
    {r : Relogio} (h : getRelogio app.relogios c = some r) (hlt : r.quantidade < q) :
    (vender_relogio app c q n).relogios = app.relogios ∧
    (vender_relogio app c q n).historico = app.historico ∧
    (vender_relogio app c q n).mensagens
      = app.mensagens ++ ["Não há estoque suficiente para vender!"] ∧
    (vender_relogio app c q n).historico_codigos_unicos = app.historico_codigos_unicos := by
  unfold vender_relogio
  rw [h]
  dsimp only
  rw [if_neg (by omega)]
  exact ⟨atualizaBoth_relogios _, atualizaBoth_historico _, atualizaBoth_mensagens _,
    atualizaBoth_codigos _⟩

theorem vender_ok (app : App) (c : String) (q : Int) (n : String)
    {r : Relogio} (h : getRelogio app.relogios c = some r) (hge : q ≤ r.quantidade) :
    (vender_relogio app c q n).relogios
      = modifyRelogio app.relogios c (fun r => { r with quantidade := r.quantidade - q }) ∧
    (vender_relogio app c q n).historico = app.historico ++
      [{ codigo := c, quantidade := q, operacao := "VENDA", timestamp := n }] ∧
    (vender_relogio app c q n).mensagens
      = app.mensagens ++ [s!"Vendido {q} unidades do relógio {c}"] ∧
    (vender_relogio app c q n).historico_codigos_unicos = app.historico_codigos_unicos := by
  unfold vender_relogio
  rw [h]
  dsimp only
  rw [if_pos (by omega)]
  exact ⟨atualizaBoth_relogios _, atualizaBoth_historico _, atualizaBoth_mensagens _,
    atualizaBoth_codigos _⟩

theorem allNonneg_insertRelogio {l : List Relogio} {c : String} {r : Relogio}
    (hl : allNonneg l) (hr : 0 ≤ r.quantidade) : allNonneg (insertRelogio l c r) := by
  intro y hy
  rcases mem_insertRelogio hy with h | h
  · exact hl y h
  · exact h ▸ hr

theorem applyOp_nonneg {app : App} {op : Op} (h : allNonneg app.relogios)
    (hok : opQtdOk op = true) : allNonneg (applyOp app op).relogios := by
  cases op with
  | register c q n =>
    rw [applyOp, cadastrar_relogios]
    have hq : 0 ≤ q := by simpa [opQtdOk] using hok
    exact allNonneg_insertRelogio h hq
  | buy c q n =>
    have hq : 0 ≤ q := by simpa [opQtdOk] using hok
    rw [applyOp]
    cases hf : getRelogio app.relogios c with
    | none =>
      rw [comprar_relogios_missing app c q n hf]
      exact allNonneg_insertRelogio h hq
    | some r =>
      rw [comprar_relogios_found app c q n hf]
      intro y hy
      rcases mem_modifyRelogio hy with h1 | ⟨r2, hr2, hy2⟩
      · exact h y h1
      · have h2 : 0 ≤ r2.quantidade := h r2 (List.mem_of_find?_eq_some hr2)
        subst hy2
        dsimp only
        omega
  | sell c q n =>
    rw [applyOp]
    cases hf : getRelogio app.relogios c with
    | none =>
      rw [(vender_missing app c q n hf).1]
      exact h
    | some r =>
      by_cases hge : q ≤ r.quantidade
      · rw [(vender_ok app c q n hf hge).1]
        intro y hy
        rcases mem_modifyRelogio hy with h1 | ⟨r2, hr2, hy2⟩
        · exact h y h1
        · have hrr : r2 = r := by
            rw [hf] at hr2
            exact (Option.some.inj hr2).symm
          subst hy2 hrr
          dsimp only
          omega
      · rw [(vender_insufficient app c q n hf (by omega)).1]
        exact h

theorem applyOps_nonneg {app : App} {ops : List Op} (h : allNonneg app.relogios)
    (hok : ∀ op ∈ ops, opQtdOk op = true) : allNonneg (applyOps app ops).relogios := by
  induction ops generalizing app with
  | nil => exact h
  | cons op rest ih =>
    exact ih (applyOp_nonneg h (hok op (List.mem_cons_self _ _)))
      (fun o ho => hok o (List.mem_cons_of_mem _ ho))

/-- C1: the claim fails as stated. The REGISTER form parses and accepts the
negative quantity "-1"; one register operation from the empty store leaves an
item whose quantity is negative. -/
theorem c1_quantidade_counterexample :
    parseI32 "-1" = some (-1) ∧
    getRelogio (applyOps (App.new [] []) [Op.register "A" (-1) "t"]).relogios "A"
      = some { codigo := "A", quantidade := -1 } ∧
    ¬ allNonneg (applyOps (App.new [] []) [Op.register "A" (-1) "t"]).relogios := by
  decide

/-- C1 (amended): starting from the empty store, after any sequence of
register/buy/sell operations whose register and buy quantity arguments are
non-negative, every item quantity in the store is non-negative (sell
quantities are unrestricted: the stock guard already protects them). -/
theorem c1_quantidade_nonneg (ops : List Op) (hok : ∀ op ∈ ops, opQtdOk op = true) :
    allNonneg (applyOps (App.new [] []) ops).relogios :=
  applyOps_nonneg (by decide) hok

/-- Witness for C1 at a concrete operation sequence. -/
theorem c1_quantidade_nonneg_witness :
    allNonneg (applyOps (App.new [] [])
      [Op.register "A" 2 "t", Op.sell "A" 1 "t", Op.buy "B" 3 "t"]).relogios :=
  c1_quantidade_nonneg _ (by decide)

/-- C2: selling an unknown code, or more than the on-hand quantity, leaves
the item map and the history unchanged and appends exactly one rejection
message. -/
theorem c2_sell_rejected_noop (app : App) (c : String) (q : Int) (n : String)
    (h : getRelogio app.relogios c = none ∨
      ∃ r, getRelogio app.relogios c = some r ∧ r.quantidade < q) :
    (vender_relogio app c q n).relogios = app.relogios ∧
    (vender_relogio app c q n).historico = app.historico ∧
    ∃ m, (vender_relogio app c q n).mensagens = app.mensagens ++ [m] := by
  rcases h with h | ⟨r, h, hlt⟩
  · obtain ⟨h1, h2, h3, _⟩ := vender_missing app c q n h
    exact ⟨h1, h2, _, h3⟩
  · obtain ⟨h1, h2, h3, _⟩ := vender_insufficient app c q n h hlt
    exact ⟨h1, h2, _, h3⟩

/-- Witness for C2: selling a code absent from the empty store. -/
theorem c2_sell_rejected_noop_witness :
    (vender_relogio (App.new [] []) "A" 1 "t").relogios = (App.new [] []).relogios ∧
    (vender_relogio (App.new [] []) "A" 1 "t").historico = (App.new [] []).historico ∧
    ∃ m, (vender_relogio (App.new [] []) "A" 1 "t").mensagens
      = (App.new [] []).mensagens ++ [m] :=
  c2_sell_rejected_noop (App.new [] []) "A" 1 "t" (Or.inl (by decide))

/-- C8: buy always appends exactly one COMPRA history entry carrying the
bought quantity; it adds the quantity to an existing item, or creates the
item with exactly that quantity. -/
theorem c8_buy_semantics (app : App) (c : String) (q : Int) (n : String) :
    (comprar_relogio app c q n).historico = app.historico ++
      [{ codigo := c, quantidade := q, operacao := "COMPRA", timestamp := n }] ∧
    (∀ r, getRelogio app.relogios c = some r →
      getRelogio (comprar_relogio app c q n).relogios c
        = some { codigo := r.codigo, quantidade := r.quantidade + q }) ∧
    (getRelogio app.relogios c = none →
      getRelogio (comprar_relogio app c q n).relogios c
        = some { codigo := c, quantidade := q }) := by
  refine ⟨comprar_historico app c q n, ?_, ?_⟩
  · intro r hr
    rw [comprar_relogios_found app c q n hr]
    exact getRelogio_modifyRelogio_self hr rfl
  · intro hn
    rw [comprar_relogios_missing app c q n hn]
    exact getRelogio_insertRelogio_self _ rfl

/-- Witness for C8: buying an unknown code on the empty store. -/
theorem c8_buy_semantics_witness :
    (comprar_relogio (App.new [] []) "A" 5 "t").historico = (App.new [] []).historico ++
      [{ codigo := "A", quantidade := 5, operacao := "COMPRA", timestamp := "t" }] ∧
    getRelogio (comprar_relogio (App.new [] []) "A" 5 "t").relogios "A"
      = some { codigo := "A", quantidade := 5 } :=
  ⟨(c8_buy_semantics (App.new [] []) "A" 5 "t").1,
   (c8_buy_semantics (App.new [] []) "A" 5 "t").2.2 (by decide)⟩

/-- C10: the claim fails as stated. The store can hold a negative quantity
(register it with -1); then the code exists and q = 0 is non-positive, yet
the sale is rejected: no VENDA entry is appended, the map is unchanged, and
the insufficient-stock message is emitted. -/
theorem c10_sell_counterexample :
    getRelogio appC10.relogios "A" = some { codigo := "A", quantidade := -1 } ∧
    (vender_relogio appC10 "A" 0 "t").historico = [] ∧
    (vender_relogio appC10 "A" 0 "t").relogios = appC10.relogios ∧
    (vender_relogio appC10 "A" 0 "t").mensagens
      = appC10.mensagens ++ ["Não há estoque suficiente para vender!"] := by
  decide

/-- C10 (amended): for an existing code whose on-hand quantity is at least
q — which covers every code with non-negative on-hand quantity, and also
negative on-hand stock as long as q does not exceed it — and any
non-positive q, the sale passes the stock guard: the quantity becomes
`on-hand − q` (an increase for q < 0) and exactly one VENDA history entry
with quantity field q is appended. -/
theorem c10_sell_nonpositive_accepted (app : App) (c : String) (q : Int) (n : String)
    {r : Relogio} (h : getRelogio app.relogios c = some r) (hge : q ≤ r.quantidade)
    (hq : q ≤ 0) :
    (vender_relogio app c q n).historico = app.historico ++
      [{ codigo := c, quantidade := q, operacao := "VENDA", timestamp := n }] ∧
    getRelogio (vender_relogio app c q n).relogios c
      = some { codigo := r.codigo, quantidade := r.quantidade - q } := by
  obtain ⟨h1, h2, h3, _⟩ := vender_ok app c q n h hge
  refine ⟨h2, ?_⟩
  rw [h1]
  exact getRelogio_modifyRelogio_self h rfl

/-- Witness for C10 at on-hand quantity -1 and q = -2: the guard -1 ≥ -2
passes, the quantity rises to 1, and the VENDA entry carries -2. -/
theorem c10_sell_nonpositive_accepted_witness :
    (vender_relogio (App.new [{ codigo := "A", quantidade := -1 }] []) "A" (-2) "t").historico
      = (App.new [{ codigo := "A", quantidade := -1 }] []).historico ++
        [{ codigo := "A", quantidade := -2, operacao := "VENDA", timestamp := "t" }] ∧
    getRelogio
        (vender_relogio (App.new [{ codigo := "A", quantidade := -1 }] []) "A" (-2) "t").relogios
        "A"
      = some { codigo := "A", quantidade := 1 } := by
  have h := c10_sell_nonpositive_accepted (App.new [{ codigo := "A", quantidade := -1 }] [])
    "A" (-2) "t" (r := { codigo := "A", quantidade := -1 }) (by decide) (by decide) (by decide)
  refine ⟨h.1, ?_⟩
  rw [h.2]
  norm_num

theorem cursorStep_inv {c : Cursor} {n : Nat} (h : cursorInv c n) (op : CursorOp) :
    cursorInv (cursorStep (c, n) op).1 (cursorStep (c, n) op).2 := by
  obtain ⟨h1, h2, h3⟩ := h
  cases op with
  | up =>
    unfold cursorStep Cursor.moveUp cursorInv
    dsimp only
    split_ifs <;> (try dsimp only) <;> omega
  | down =>
    unfold cursorStep Cursor.moveDown cursorInv
    dsimp only
    split_ifs <;> (try dsimp only) <;> omega
  | reclampTo m =>
    unfold cursorStep Cursor.reclamp cursorInv
    dsimp only
    split_ifs <;> omega

/-- C3: the cursor guarantee (`selected < N` when `N > 0`, and
`offset ≤ selected < offset + viewport_height` with the source's
`vis_height = 5`) is preserved by every sequence of move-up, move-down and
re-clamp operations, hence holds after each operation of the sequence. -/
theorem c3_cursor_invariant (c : Cursor) (n : Nat) (h : cursorInv c n) (ops : List CursorOp) :
    cursorInv (cursorRun (c, n) ops).1 (cursorRun (c, n) ops).2 := by
  induction ops generalizing c n with
  | nil => exact h
  | cons op rest ih =>
    have hstep := cursorStep_inv h op
    exact ih _ _ hstep

/-- Witness for C3 at the initial cursor, backing length 3 and a concrete
operation sequence that moves and then shrinks the list. -/
theorem c3_cursor_invariant_witness :
    cursorInv
      (cursorRun ({ offset := 0, selected := 0 }, 3)
        [CursorOp.down, CursorOp.down, CursorOp.reclampTo 1, CursorOp.up]).1
      (cursorRun ({ offset := 0, selected := 0 }, 3)
        [CursorOp.down, CursorOp.down, CursorOp.reclampTo 1, CursorOp.up]).2 :=
  c3_cursor_invariant { offset := 0, selected := 0 } 3 (by decide) _

/-- C4: the claim is right and the code is wrong for non-ASCII text. The
cost row of `levenshtein_distance` is sized by the BYTE length of `b` while
the loops walk characters, so the returned cell `costs[b.len()]` is never
written once `b` contains a multi-byte character: the self-distance of "é"
is 2, not 0, and the distance from "" to "é" is 2, not its character count
1. -/
theorem c4_levenshtein_multibyte_bug :
    levenshtein_distance ['é'] ['é'] = 2 ∧
    levenshtein_distance [] ['é'] = 2 ∧
    utf8Len ['é'] = 2 ∧
    (['é'] : List Char).length = 1 := by
  decide

/-- C9: the claim fails as stated. With the one-token input "abc" the
REGISTER Enter handler performs no mutation, but it also appends NO message:
the wrong-token-count case falls through silently (only the
bad-integer-with-two-tokens case pushes "Quantidade inválida!"). -/
theorem c9_malformed_counterexample :
    splitWhitespace (rustTrim appC9.input) = ["abc"] ∧
    (cadastroEnter appC9 "t").relogios = appC9.relogios ∧
    (cadastroEnter appC9 "t").historico = appC9.historico ∧
    (cadastroEnter appC9 "t").mensagens = appC9.mensagens := by
  decide

/-- C9 (amended): on malformed input the REGISTER Enter handler never
mutates the item map or the history; it appends the error message
"Quantidade inválida!" exactly when there are two tokens and the second
fails integer parsing, and appends nothing when the token count is wrong. -/
theorem c9_malformed_noop (app : App) (now : String) :
    ((splitWhitespace (rustTrim app.input)).length ≠ 2 →
      (cadastroEnter app now).relogios = app.relogios ∧
      (cadastroEnter app now).historico = app.historico ∧
      (cadastroEnter app now).mensagens = app.mensagens) ∧
    ((splitWhitespace (rustTrim app.input)).length = 2 →
      parseI32 ((splitWhitespace (rustTrim app.input)).getD 1 "") = none →
      (cadastroEnter app now).relogios = app.relogios ∧
      (cadastroEnter app now).historico = app.historico ∧
      (cadastroEnter app now).mensagens = app.mensagens ++ ["Quantidade inválida!"]) := by
  constructor
  · intro hlen
    unfold cadastroEnter
    dsimp only
    rw [if_neg hlen]
    exact ⟨rfl, rfl, rfl⟩
  · intro hlen hparse
    unfold cadastroEnter
    dsimp only
    rw [if_pos hlen, hparse]
    exact ⟨rfl, rfl, rfl⟩

/-- Witness for C9: the one-token input appends nothing; the two-token
input with a non-integer quantity appends the error message. -/
theorem c9_malformed_noop_witness :
    (cadastroEnter appC9 "t").mensagens = appC9.mensagens ∧
    (cadastroEnter { appC9 with input := "A x" } "t").mensagens
      = { appC9 with input := "A x" }.mensagens ++ ["Quantidade inválida!"] :=
  ⟨((c9_malformed_noop appC9 "t").1 (by decide)).2.2,
   ((c9_malformed_noop { appC9 with input := "A x" } "t").2 (by decide) (by decide)).2.2⟩

/-- C5: the claim fails as stated. In `appC5` the suggestion list is
non-empty and its top-ranked (first, minimum-distance) entry is "A", but the
suggestion cursor sits on index 1, so confirming filters the history by "B":
the installed filter holds the "B" entry, not the history of "A". -/
theorem c5_confirm_counterexample :
    appC5.historico_search_results = [("A", 0), ("B", 1)] ∧
    appC5.historico_search_selected = 1 ∧
    (historicoEditingEnter appC5).historico_filtrado = some [histB] ∧
    get_historico_por_codigo appC5 "A" = [histA] ∧
    ([histB] : List Historico) ≠ [histA] := by
  decide

/-- C5 (amended): confirming the HISTORY search applies the code filter
using the suggestion at the CURRENT suggestion-cursor index (which is the
top-ranked entry only while the cursor has not been moved); only with an
empty suggestion list is the trimmed raw input used. In both cases editing
ends, the input is cleared and the HISTORY cursor is reset. -/
theorem c5_confirm_selected_suggestion (app : App) :
    (app.historico_search_results ≠ [] →
      filtroAplicado app (historicoEditingEnter app)
        (app.historico_search_results.getD app.historico_search_selected ("", 0)).1) ∧
    (app.historico_search_results = [] →
      filtroAplicado app (historicoEditingEnter app) (rustTrim app.input)) := by
  constructor
  · intro hne
    unfold historicoEditingEnter
    rw [if_pos hne]
    unfold filtroAplicado filtrar_historico get_historico_por_codigo
    dsimp only
    split_ifs <;> exact ⟨rfl, rfl, rfl, rfl, rfl, rfl, rfl⟩
  · intro he
    unfold historicoEditingEnter
    rw [if_neg (by simp [he])]
    unfold filtroAplicado filtrar_historico get_historico_por_codigo
    dsimp only
    split_ifs <;> exact ⟨rfl, rfl, rfl, rfl, rfl, rfl, rfl⟩

/-- Witness for C5: in `appC5` the suggestion list is non-empty and the
confirmed filter is the one of the selected suggestion. -/
theorem c5_confirm_selected_suggestion_witness :
    filtroAplicado appC5 (historicoEditingEnter appC5)
      (appC5.historico_search_results.getD appC5.historico_search_selected ("", 0)).1 :=
  (c5_confirm_selected_suggestion appC5).1 (by decide)

theorem vender_codigos (app : App) (c : String) (q : Int) (n : String) :
    (vender_relogio app c q n).historico_codigos_unicos = app.historico_codigos_unicos := by
  unfold vender_relogio
  cases h : getRelogio app.relogios c with
  | none =>
    dsimp only
    rw [atualizaBoth_codigos]
  | some r =>
    dsimp only
    rw [atualizaBoth_codigos]
    split_ifs <;> rfl

theorem applyOp_codigos (app : App) (op : Op) :
    (applyOp app op).historico_codigos_unicos = app.historico_codigos_unicos := by
  cases op with
  | register c q n => exact cadastrar_codigos app c q n
  | buy c q n => exact comprar_codigos app c q n
  | sell c q n => exact vender_codigos app c q n

theorem applyOps_codigos (app : App) (ops : List Op) :
    (applyOps app ops).historico_codigos_unicos = app.historico_codigos_unicos := by
  induction ops generalizing app with
  | nil => rfl
  | cons op rest ih =>
    calc (applyOps (applyOp app op) rest).historico_codigos_unicos
        = (applyOp app op).historico_codigos_unicos := ih _
      _ = app.historico_codigos_unicos := applyOp_codigos app op

theorem atualizar_results_eq (app : App) :
    (atualizar_historico_search_results app).historico_search_results
      = List.insertionSort (fun a b : String × Nat => a.2 ≤ b.2)
          (app.historico_codigos_unicos.map
            (fun c => (c, levenshteinDistanceS c (rustTrim app.input)))) := by
  unfold atualizar_historico_search_results
  dsimp only
  split_ifs <;> rfl

theorem appNew_codigos (relogios : List Relogio) (hist : List Historico) :
    (App.new relogios hist).historico_codigos_unicos
      = List.insertionSort (fun a b => strLeS a b = true)
          ((hist.map (fun h => h.codigo)).dedup) := by
  unfold App.new
  dsimp only
  rw [atualizaBoth_codigos]

/-- C6: the claim fails as stated. Starting the application with an empty
history and buying code "A" appends a history entry for "A", yet the
HISTORY-search ranking computed afterwards is empty: codes first appearing
after startup are not ranked, because `historico_codigos_unicos` is built
once in `App::new` and never refreshed. -/
theorem c6_ranking_counterexample :
    (comprar_relogio (App.new [] []) "A" 1 "2024-01-01 00:00:00").historico
      = [{ codigo := "A", quantidade := 1, operacao := "COMPRA",
           timestamp := "2024-01-01 00:00:00" }] ∧
    (atualizar_historico_search_results
        (comprar_relogio (App.new [] []) "A" 1 "2024-01-01 00:00:00")).historico_search_results
      = [] := by
  decide

/-- C6 (amended): after any sequence of store operations and for ANY typed
query q sitting in the input buffer, the HISTORY-search ranking is computed
over exactly the distinct codes of the history as loaded at startup
(`App::new`): the ranked codes are a permutation of the distinct codes of
the initial history, whatever the query, so codes whose first entry was
appended after startup never enter the candidate set. -/
theorem c6_ranking_startup_codes (relogios : List Relogio) (hist : List Historico)
    (ops : List Op) (q : String) :
    ((atualizar_historico_search_results
        { applyOps (App.new relogios hist) ops with
          input := q }).historico_search_results.map
          Prod.fst).Perm
      ((hist.map (fun h => h.codigo)).dedup) := by
  rw [atualizar_results_eq]
  dsimp only
  rw [applyOps_codigos, appNew_codigos]
  have h1 := (List.perm_insertionSort (fun a b : String × Nat => a.2 ≤ b.2)
    ((List.insertionSort (fun a b => strLeS a b = true)
        ((hist.map (fun h => h.codigo)).dedup)).map
      (fun c => (c, levenshteinDistanceS c (rustTrim q))))).map Prod.fst
  refine h1.trans ?_
  rw [List.map_map]
  have h2 : ((fun p : String × Nat => p.1) ∘
      (fun c => (c, levenshteinDistanceS c (rustTrim q)))) = id := by
    funext c
    rfl
  rw [h2, List.map_id]
  exact List.perm_insertionSort _ _

theorem strLtb_irrefl (a : List Char) : strLtb a a = false := by
  induction a with
  | nil => rfl
  | cons x xs ih => simp [strLtb, ih]

theorem strLtb_trans {a b c : List Char} (h1 : strLtb a b = true)
    (h2 : strLtb b c = true) : strLtb a c = true := by
  induction a generalizing b c with
  | nil =>
    cases c with
    | nil =>
      cases b with
      | nil => simp [strLtb] at h1
      | cons y bs => simp [strLtb] at h2
    | cons z cs => simp [strLtb]
  | cons x as ih =>
    cases b with
    | nil => simp [strLtb] at h1
    | cons y bs =>
      cases c with
      | nil => simp [strLtb] at h2
      | cons z cs =>
        by_cases hxy : x < y
        · by_cases hyz : y < z
          · have hxz : x < z := lt_trans hxy hyz
            simp [strLtb, hxz]
          · by_cases hzy : z < y
            · simp [strLtb, hyz, hzy] at h2
            · have hyzeq : y = z := le_antisymm (not_lt.mp hzy) (not_lt.mp hyz)
              subst hyzeq
              simp [strLtb, hxy]
        · by_cases hyx : y < x
          · simp [strLtb, hxy, hyx] at h1
          · have hxyeq : x = y := le_antisymm (not_lt.mp hyx) (not_lt.mp hxy)
            subst hxyeq
            rw [strLtb, if_neg (lt_irrefl x), if_neg (lt_irrefl x)] at h1
            by_cases hyz : x < z
            · simp [strLtb, hyz]
            · by_cases hzy : z < x
              · simp [strLtb, hyz, hzy] at h2
              · have hxzeq : x = z := le_antisymm (not_lt.mp hzy) (not_lt.mp hyz)
                subst hxzeq
                rw [strLtb, if_neg (lt_irrefl x), if_neg (lt_irrefl x)] at h2 ⊢
                exact ih h1 h2

theorem strLtb_eq_of_not {a b : List Char} (h1 : strLtb a b = false)
    (h2 : strLtb b a = false) : a = b := by
  induction a generalizing b with
  | nil =>
    cases b with
    | nil => rfl
    | cons y bs => simp [strLtb] at h1
  | cons x as ih =>
    cases b with
    | nil => simp [strLtb] at h2
    | cons y bs =>
      by_cases hxy : x < y
      · simp [strLtb, hxy] at h1
      · by_cases hyx : y < x
        · simp [strLtb, hyx] at h2
        · have hxyeq : x = y := le_antisymm (not_lt.mp hyx) (not_lt.mp hxy)
          subst hxyeq
          rw [strLtb, if_neg (lt_irrefl x), if_neg (lt_irrefl x)] at h1 h2
          rw [ih h1 h2]

theorem strLtb_false_trans {a b c : List Char} (h1 : strLtb b a = false)
    (h2 : strLtb c b = false) : strLtb c a = false := by
  cases hca : strLtb c a with
  | false => rfl
  | true =>
    exfalso
    cases hab : strLtb a b with
    | true =>
      have h3 := strLtb_trans hca hab
      rw [h2] at h3
      simp at h3
    | false =>
      have heq : a = b := strLtb_eq_of_not hab h1
      rw [heq] at hca
      rw [hca] at h2
      simp at h2

theorem strLeS_trans {a b c : String} (h1 : strLeS a b = true) (h2 : strLeS b c = true) :
    strLeS a c = true := by
  unfold strLeS at *
  have h1f : strLtb b.toList a.toList = false := by
    cases hx : strLtb b.toList a.toList
    · rfl
    · rw [hx] at h1
      simp at h1
  have h2f : strLtb c.toList b.toList = false := by
    cases hx : strLtb c.toList b.toList
    · rfl
    · rw [hx] at h2
      simp at h2
  rw [strLtb_false_trans h1f h2f]
  rfl

theorem strLeS_total (a b : String) : strLeS a b = true ∨ strLeS b a = true := by
  unfold strLeS
  cases h1 : strLtb b.toList a.toList with
  | false => exact Or.inl rfl
  | true =>
    right
    cases h2 : strLtb a.toList b.toList with
    | false => rfl
    | true =>
      have h3 := strLtb_trans h1 h2
      rw [strLtb_irrefl] at h3
      simp at h3

theorem strLtb_of_le_of_ne {a b : String} (hle : strLeS a b = true) (hne : a ≠ b) :
    strLtb a.toList b.toList = true := by
  unfold strLeS at hle
  have hba : strLtb b.toList a.toList = false := by
    cases hx : strLtb b.toList a.toList
    · rfl
    · rw [hx] at hle
      simp at hle
  cases hab : strLtb a.toList b.toList with
  | true => rfl
  | false =>
    exact absurd (String.ext (strLtb_eq_of_not hab hba)) hne

/-- C7: the daily bucketing yields at most 7 buckets, strictly ascending in
the original YYYY-MM-DD date key, whose two counters are exactly the number
of VENDA and COMPRA entries of that calendar day (CADASTRO entries are
counted by neither); the displayed list is the DD/MM reformat of those
buckets. -/
theorem c7_agrupamento_props (hist : List Historico) :
    (agrupamento_por_dia hist).length ≤ 7 ∧
    List.Pairwise (fun a b => strLtb a.1.toList b.1.toList = true) (agrupamento_buckets hist) ∧
    (∀ x ∈ agrupamento_buckets hist,
      x.2.1 = contaVendas hist x.1 ∧ x.2.2 = contaCompras hist x.1) ∧
    agrupamento_por_dia hist
      = (agrupamento_buckets hist).map (fun x => (formata_data_ddmm x.1, x.2.1, x.2.2)) := by
  have hperm : (List.insertionSort
      (fun a b : String × Nat × Nat => strLeS a.1 b.1 = true)
      (((hist.filterMap (fun h => dataDe h.timestamp)).dedup).map
        (fun d => (d, contaVendas hist d, contaCompras hist d)))).Perm
      (((hist.filterMap (fun h => dataDe h.timestamp)).dedup).map
        (fun d => (d, contaVendas hist d, contaCompras hist d))) :=
    List.perm_insertionSort _ _
  refine ⟨?_, ?_, ?_, rfl⟩
  · unfold agrupamento_por_dia agrupamento_buckets
    dsimp only
    rw [List.length_map, List.length_drop]
    split_ifs <;> omega
  · unfold agrupamento_buckets
    dsimp only
    apply List.Pairwise.sublist (List.drop_sublist _ _)
    have hsorted : List.Pairwise (fun a b : String × Nat × Nat => strLeS a.1 b.1 = true)
        (List.insertionSort (fun a b : String × Nat × Nat => strLeS a.1 b.1 = true)
          (((hist.filterMap (fun h => dataDe h.timestamp)).dedup).map
            (fun d => (d, contaVendas hist d, contaCompras hist d)))) :=
      @List.sorted_insertionSort _ _ _
        ⟨fun (a b : String × Nat × Nat) => strLeS_total a.1 b.1⟩
        ⟨fun (a b c : String × Nat × Nat) h1 h2 => strLeS_trans h1 h2⟩ _
    have hkeys : ((List.insertionSort
        (fun a b : String × Nat × Nat => strLeS a.1 b.1 = true)
        (((hist.filterMap (fun h => dataDe h.timestamp)).dedup).map
          (fun d => (d, contaVendas hist d, contaCompras hist d)))).map
            (fun x => x.1)).Perm
        ((hist.filterMap (fun h => dataDe h.timestamp)).dedup) := by
      have h1 := hperm.map (fun x : String × Nat × Nat => x.1)
      rw [List.map_map] at h1
      have h2 : ((fun x : String × Nat × Nat => x.1) ∘
          (fun d => (d, contaVendas hist d, contaCompras hist d))) = id := by
        funext d
        rfl
      rw [h2, List.map_id] at h1
      exact h1
    have hnodup : ((List.insertionSort
        (fun a b : String × Nat × Nat => strLeS a.1 b.1 = true)
        (((hist.filterMap (fun h => dataDe h.timestamp)).dedup).map
          (fun d => (d, contaVendas hist d, contaCompras hist d)))).map
            (fun x => x.1)).Nodup :=
      hkeys.symm.nodup (List.nodup_dedup _)
    have hne := (List.pairwise_map.mp hnodup)
    exact (hsorted.and hne).imp (fun h => strLtb_of_le_of_ne h.1 h.2)
  · intro x hx
    unfold agrupamento_buckets at hx
    dsimp only at hx
    have hx2 := List.mem_of_mem_drop hx
    have hx3 := (hperm.mem_iff).mp hx2
    rcases List.mem_map.mp hx3 with ⟨d, hd, hdx⟩
    subst hdx
    exact ⟨rfl, rfl⟩

/-- Witness for C7 at the concrete history `hist0`: the membership conjunct
instantiated at its first bucket, plus the length bound. -/
theorem c7_agrupamento_props_witness :
    (agrupamento_por_dia hist0).length ≤ 7 ∧
    (("2024-01-01", (0 : Nat), (1 : Nat)).2.1 = contaVendas hist0 "2024-01-01" ∧
     ("2024-01-01", (0 : Nat), (1 : Nat)).2.2 = contaCompras hist0 "2024-01-01") :=
  ⟨(c7_agrupamento_props hist0).1,
   (c7_agrupamento_props hist0).2.2.1 ("2024-01-01", 0, 1) (by decide)⟩
